import Mathlib

/-!
# Verification of the db-bench workload/measurement core

A shallow embedding of the measurement core of `db-bench` (files
`workload.rs`, `benchmark.rs`, `engine.rs`, `metrics.rs`, `main.rs`,
`analyzer.rs`) together with proofs about it.

Modelling conventions:
* Rust strings appearing in the embedded code paths are ASCII; they are
  modelled as lists of byte values (`List Nat`, each element < 256).
* Machine integers (`u32`, `u64`, 64-bit `usize`) are modelled as `Nat`
  with an explicit `% 2^w` wherever the Rust arithmetic can overflow and
  the overflowing inputs are reachable from program input (the release
  profile of a Rust binary wraps on overflow; a debug build would panic
  at the same inputs, so every divergence exhibited below is a divergence
  in both profiles).  Cumulative byte counters fed by per-operation
  increments are modelled as unbounded `Nat`: reaching `2^64` bytes is
  physically impossible within a run.
* Operations that panic in Rust (integer division by zero, `.unwrap()` on
  an `Err`) are modelled with `Option`/`Except`, `none`/`.error` marking
  the panic.
* `f64` arithmetic on counter-derived values is modelled as exact rational
  arithmetic (`ℚ`); the properties proved (equalities to the defining
  formula, `≥ 1` bounds) are preserved by the monotone rounding of IEEE
  division on these nonnegative quotients.
-/

namespace DbBench

/-- The modulus of Rust `u32` arithmetic. -/
def U32 : Nat := 2 ^ 32

/-- The modulus of Rust `u64` (and 64-bit `usize`) arithmetic. -/
def U64 : Nat := 2 ^ 64

/-! ## Byte-level string helpers (ASCII scope) -/

/-- Rust `char::to_lowercase` restricted to ASCII: uppercase letters
(byte values 65..90) are shifted to lowercase, everything else is kept. -/
def toLowerByte (b : Nat) : Nat :=
  if 65 ≤ b ∧ b ≤ 90 then b + 32 else b

/-- Rust `str::to_lowercase` on an ASCII byte string. -/
def toLowerStr (s : List Nat) : List Nat :=
  s.map toLowerByte

/-- Rust `char::is_numeric` restricted to ASCII: the decimal digit bytes
48..57.  (Non-ASCII Unicode numerics are outside the scope of every
configuration string considered here.) -/
def is_numeric (b : Nat) : Bool :=
  48 ≤ b && b ≤ 57

/-- Rust `str::ends_with` on byte strings. -/
def hasSuffix (s t : List Nat) : Bool :=
  decide (s.reverse.take t.length = t.reverse)

/-- Value of a digit-byte string read as a decimal number
(the accumulator loop inside `str::parse::<u64>`). -/
def digitsValue (bs : List Nat) : Nat :=
  bs.foldl (fun a b => a * 10 + (b - 48)) 0

/-- Rust `str::parse::<u64>`: fails on the empty string, on any
non-digit byte and on values that do not fit in a `u64`. -/
def parseU64 (bs : List Nat) : Option Nat :=
  if bs.isEmpty then none
  else if bs.all is_numeric then
    if digitsValue bs < U64 then some (digitsValue bs) else none
  else none

/-- The big-endian decimal digit bytes of `n`, least significant first
(helper for `decimalDigits`). -/
def decimalDigitsRev : Nat → List Nat
  | 0 => []
  | n + 1 => (48 + (n + 1) % 10) :: decimalDigitsRev ((n + 1) / 10)
decreasing_by exact Nat.div_lt_self (Nat.succ_pos n) (by decide)

/-- The decimal digit bytes of `n`, most significant first, as produced
by Rust's `Display` formatting of an unsigned integer. -/
def decimalDigits (n : Nat) : List Nat :=
  if n = 0 then [48] else (decimalDigitsRev n).reverse

/-! ## `WorkloadConfig` (src/workload.rs lines 10-53) -/

/-- `WorkloadConfig` from `workload.rs`: `writes` and `reads` are `u32`
percentages, `key_size`/`value_size` are `usize`, `dataset_size` is a
string such as `"100GB"` (modelled as its byte list), `duration` is `u64`
seconds. -/
structure WorkloadConfig where
  writes : Nat
  reads : Nat
  key_size : Nat
  value_size : Nat
  dataset_size : List Nat
  duration : Nat

/-- `WorkloadConfig::from_file` (workload.rs lines 21-30).  Reading and
YAML-parsing the file are external; their outcome is the `Option` input
(`none` models an unreadable or unparsable file).  The validation that is
in the repository is embedded exactly: the `u32` sum `writes + reads`
(wrapping, hence `% U32`) is compared with `100` and a configuration
error is returned on mismatch. -/
def from_file (parsed : Option WorkloadConfig) : Except (List Nat) WorkloadConfig :=
  match parsed with
  | none => .error [63]
  | some config =>
    if (config.writes + config.reads) % U32 ≠ 100 then
      .error [87, 114, 105, 116, 101, 115]
    else
      .ok config

/-- `WorkloadConfig::total_keys` (workload.rs lines 32-52): lowercase the
dataset size string, choose the multiplier from the `gb`/`mb` suffix,
keep only the numeric characters, parse them with `unwrap_or(1)`,
multiply (wrapping `u64` multiplication) and divide by the wrapped
`usize` sum `key_size + value_size` cast to `u64`.  Rust integer division
by zero panics, modelled as `none`. -/
def total_keys (c : WorkloadConfig) : Option Nat :=
  let size_str := toLowerStr c.dataset_size
  let multiplier : Nat :=
    if hasSuffix size_str [103, 98] then 1000000000
    else if hasSuffix size_str [109, 98] then 1000000
    else 1
  let size_num : Nat := (parseU64 (size_str.filter is_numeric)).getD 1
  let total_bytes : Nat := (size_num * multiplier) % U64
  let denom : Nat := (c.key_size + c.value_size) % U64
  if denom = 0 then none else some (total_bytes / denom)

/-! ## Key/value generation (src/workload.rs lines 111, 147-164, 199-212) -/

/-- Modelled from the spec: the external crate `rand`'s `StdRng` is not
part of this repository; spec §4.2 only requires a deterministic
pseudo-random source, i.e. that the bytes drawn are a function of the
seed and the draw position.  The model realises exactly that: a state
carrying the seed and the number of draws made so far. -/
structure StdRng where
  seed : Nat
  pos : Nat
deriving DecidableEq

/-- Modelled from the spec: a concrete deterministic mixing function
standing in for `StdRng`'s stream; any function of `(seed, pos)` has the
reproducibility properties the spec ascribes to the generator. -/
def mixBits (s c : Nat) : Nat :=
  (s * 6364136223846793005 + c * 1442695040888963407 + 1013904223) % U64

/-- Modelled from the spec: `StdRng::seed_from_u64`. -/
def StdRng.seed_from_u64 (s : Nat) : StdRng :=
  ⟨s % U64, 0⟩

/-- Modelled from the spec: one `rng.gen::<u8>()` draw. -/
def StdRng.next_u8 (r : StdRng) : Nat × StdRng :=
  (mixBits r.seed r.pos % 256, ⟨r.seed, r.pos + 1⟩)

/-- `Workload::generate_key` (workload.rs lines 199-206):
`format!("key_{:016}", key_num)` — the bytes `"key_"` followed by the
decimal digits of `key_num` left-padded with `'0'` to width 16 — then
`.take(key_size)`.  The `_rng` parameter is present in the source
signature and unused there, exactly as here. -/
def generate_key (key_size : Nat) (_rng : StdRng) (key_num : Nat) : List Nat :=
  ([107, 101, 121, 95] ++
    (List.replicate (16 - (decimalDigits key_num).length) 48 ++ decimalDigits key_num)).take
    key_size

/-- `Workload::generate_value` (workload.rs lines 208-212): `value_size`
sequential `rng.gen::<u8>()` draws, returning the bytes and the advanced
generator state. -/
def generate_value : Nat → StdRng → List Nat × StdRng
  | 0, r => ([], r)
  | n + 1, r =>
    let d := r.next_u8
    let rest := generate_value n d.2
    (d.1 :: rest.1, rest.2)

/-- The key/value pairs issued by the population loop starting at index
`i` with generator state `rng` and `fuel` iterations left (helper for
`populate_initial_data`). -/
def populateFrom (ks vs : Nat) : Nat → Nat → StdRng → List (List Nat × List Nat)
  | 0, _, _ => []
  | fuel + 1, i, rng =>
    let key := generate_key ks rng i
    let v := generate_value vs rng
    (key, v.1) :: populateFrom ks vs fuel (i + 1) v.2

/-- `Workload::populate_initial_data` (workload.rs lines 147-164),
projected to the key/value sequence it sends to the engine: the generator
is freshly seeded with `StdRng::seed_from_u64(42)` (line 149) and for
`i in 0..count` the pair `(generate_key(i), generate_value())` is put. -/
def populate_initial_data (ks vs count : Nat) : List (List Nat × List Nat) :=
  populateFrom ks vs count 0 (StdRng.seed_from_u64 42)

/-- The generator state the population phase starts from
(workload.rs line 149). -/
def populate_phase_rng : StdRng := StdRng.seed_from_u64 42

/-- The generator state the timed benchmark loop starts from
(workload.rs line 111). -/
def timed_phase_rng : StdRng := StdRng.seed_from_u64 42

/-! ## Operation-mix dispatch (benchmark.rs lines 244-264, workload.rs
lines 113-118) -/

/-- The three operation classes of the timed loop. -/
inductive OpType where
  | write
  | scan
  | read
deriving DecidableEq

/-- The dispatch of `Benchmark::run` (benchmark.rs lines 246-264): with
`op_type` drawn from `[0,100)`, write when `op_type < write_ratio`, else
scan when `op_type < write_ratio + scan_ratio`, else read. -/
def benchmark_select_op (write_ratio scan_ratio op_type : Nat) : OpType :=
  if op_type < write_ratio then .write
  else if op_type < write_ratio + scan_ratio then .scan
  else .read

/-- The dispatch of `Workload::run` (workload.rs lines 113-118): write
when the draw is below `config.writes`, read otherwise (no scan arm). -/
def workload_select_op (writes op_type : Nat) : OpType :=
  if op_type < writes then .write else .read

/-! ## Amplification (workload.rs lines 214-227, engine.rs, benchmark.rs
metrics) -/

/-- `EngineStatistics` from `engine.rs` lines 15-21.  The fields are
cumulative byte counters; they are modelled as unbounded naturals (a run
cannot physically accumulate `2^64` bytes). -/
structure EngineStatistics where
  bytes_written : Nat
  bytes_read : Nat
  compaction_bytes_written : Nat
  compaction_bytes_read : Nat

/-- `Workload::calculate_write_amplification` (workload.rs lines
214-227): `1.0` when `bytes_written == 0`, otherwise
`(bytes_written + compaction_bytes_written) / bytes_written` rounded to
two decimal places (`(waf * 100.0).round() / 100.0`; the argument is
nonnegative, so `f64`'s round-half-away-from-zero agrees with `round`). -/
def calculate_write_amplification (stats : EngineStatistics) : ℚ :=
  if stats.bytes_written = 0 then 1
  else
    let total_disk_writes : Nat := stats.bytes_written + stats.compaction_bytes_written
    let waf : ℚ := (total_disk_writes : ℚ) / (stats.bytes_written : ℚ)
    ((round (waf * 100) : ℤ) : ℚ) / 100

/-- The `compact_write` fallback of `RocksDBEngine::metrics`
(benchmark.rs lines 84-91): the parsed `rocksdb.compact-write-bytes`
property when available, else `bytes_written * 2`. -/
def rocksdb_compact_write (property : Option Nat) (bytes_written : Nat) : Nat :=
  match property with
  | some v => v
  | none => bytes_written * 2

/-- The write-amplification computation of `RocksDBEngine::metrics`
(benchmark.rs lines 93-95): `(bytes_written + compact_write) /
bytes_written` with a `1.0` guard for `bytes_written == 0`. -/
def rocksdb_write_amp (bytes_written compact_write : Nat) : ℚ :=
  if 0 < bytes_written then
    ((bytes_written + compact_write : Nat) : ℚ) / (bytes_written : ℚ)
  else 1

/-- The space-amplification computation shared verbatim by
`RocksDBEngine::metrics` (benchmark.rs lines 97-100) and
`SledEngine::metrics` (benchmark.rs lines 172-175):
`dir_size / bytes_written` with a `1.0` guard for `bytes_written == 0`;
`dir_size` is whatever `fs_size` reports (0 when it fails). -/
def space_amp (dir_size bytes_written : Nat) : ℚ :=
  if 0 < bytes_written then (dir_size : ℚ) / (bytes_written : ℚ) else 1

/-! ## Latency recording (metrics.rs lines 11-31) -/

/-- Modelled from the spec and the documented contract of the external
`hdrhistogram` crate (not part of this repository): a histogram created
by `Histogram::new_with_bounds(lo, hi, sigfig)` has auto-resize disabled;
`record(v)` succeeds — incrementing the total count — for every `v` up to
the highest trackable value (values below the lowest discernible bound
land in the bottom bucket and are still counted), and returns an `Err`
for `v` above it.  Only the bounds and the count matter to the claims, so
the bucket layout is not modelled. -/
structure Histogram where
  lowest_discernible : Nat
  highest_trackable : Nat
  total_count : Nat

/-- Modelled from the spec: `hdrhistogram`'s `record` as described above;
`none` is the `Err` case. -/
def Histogram.record (h : Histogram) (v : Nat) : Option Histogram :=
  if v ≤ h.highest_trackable then
    some { h with total_count := h.total_count + 1 }
  else none

/-- The write/read histograms of `MetricsCollector::new` (metrics.rs
lines 12-21): `Histogram::new_with_bounds(1, 1_000_000_000, 3)`. -/
def latency_histogram : Histogram :=
  ⟨1, 1000000000, 0⟩

/-- `MetricsCollector::record_write_latency` (metrics.rs lines 23-26):
the duration in whole microseconds is passed to `record` and the result
is `.unwrap()`ed — `none` models the panic on an `Err`.
`record_read_latency` (lines 28-31) is byte-for-byte the same. -/
def record_write_latency (h : Histogram) (micros : Nat) : Option Histogram :=
  h.record micros

/-! ## Engine comparison (benchmark.rs lines 289-362) -/

/-- Selects between the two benchmark results by index (the
`results[w]` / `results[1 - w]` accesses of `compare_engines`). -/
def resultAt (w : Nat) (x0 x1 : ℚ) : ℚ :=
  if w = 0 then x0 else x1

/-- The throughput winner of `compare_engines` (benchmark.rs line 309):
index 0 when `results[0].throughput > results[1].throughput`, else 1. -/
def throughput_winner (t0 t1 : ℚ) : Nat :=
  if t0 > t1 then 0 else 1

/-- The throughput ratio printed by `compare_engines` (benchmark.rs line
313): `results[t_winner].throughput / results[1 - t_winner].throughput`. -/
def throughput_ratio (t0 t1 : ℚ) : ℚ :=
  resultAt (throughput_winner t0 t1) t0 t1 /
    resultAt (1 - throughput_winner t0 t1) t0 t1

/-- The winner used for every lower-is-better metric of
`compare_engines` — P99 write/read/scan latency (lines 317, 325, 333),
write amplification (line 341), space amplification (line 349) and
memory (line 357): index 0 when `results[0] < results[1]`, else 1. -/
def lower_wins_winner (v0 v1 : ℚ) : Nat :=
  if v0 < v1 then 0 else 1

/-- The ratio printed for every lower-is-better metric of
`compare_engines` (lines 321, 329, 337, 345, 353, 361):
`results[1 - winner] / results[winner]`, i.e. loser over winner. -/
def lower_wins_ratio (v0 v1 : ℚ) : ℚ :=
  resultAt (1 - lower_wins_winner v0 v1) v0 v1 /
    resultAt (lower_wins_winner v0 v1) v0 v1

/-- The storage engines selectable on the command line (engine.rs). -/
inductive EngineKind where
  | rocksdb
  | sled

/-- `run_benchmark` (main.rs lines 65-111), abstracted to the order of
events the claims are about: the config is loaded (and validated) first,
and only on success is an engine constructed for each requested kind.
The second component counts the engines that were constructed. -/
def run_benchmark (parsed : Option WorkloadConfig) (engines : List EngineKind) :
    Except (List Nat) Unit × Nat :=
  match from_file parsed with
  | .error e => (.error e, 0)
  | .ok _ => (.ok (), engines.length)

/-! ## Helper lemmas -/

theorem mem_decimalDigitsRev : ∀ {n b : Nat}, b ∈ decimalDigitsRev n → 48 ≤ b ∧ b ≤ 57 := by
  intro n
  induction n using Nat.strong_induction_on with
  | _ n ih =>
    intro b hb
    match n with
    | 0 => simp [decimalDigitsRev] at hb
    | m + 1 =>
      rw [decimalDigitsRev] at hb
      rcases List.mem_cons.mp hb with h | h
      · subst h
        have h10 : (m + 1) % 10 < 10 := Nat.mod_lt _ (by decide)
        omega
      · exact ih ((m + 1) / 10) (Nat.div_lt_self (Nat.succ_pos m) (by decide)) h

theorem mem_decimalDigits {n b : Nat} (h : b ∈ decimalDigits n) : 48 ≤ b ∧ b ≤ 57 := by
  unfold decimalDigits at h
  split at h
  · simp at h
    omega
  · exact mem_decimalDigitsRev (List.mem_reverse.mp h)

theorem decimalDigits_ne_nil (n : Nat) : decimalDigits n ≠ [] := by
  unfold decimalDigits
  split
  · simp
  · next h =>
    match hn : n with
    | 0 => exact absurd rfl h
    | m + 1 =>
      rw [decimalDigitsRev]
      simp

theorem digitsValue_rev (n : Nat) :
    ∀ acc : Nat,
      List.foldl (fun a b => a * 10 + (b - 48)) acc (decimalDigitsRev n).reverse =
        acc * 10 ^ (decimalDigitsRev n).length + n := by
  induction n using Nat.strong_induction_on with
  | _ n ih =>
    intro acc
    match n with
    | 0 => simp [decimalDigitsRev]
    | m + 1 =>
      rw [decimalDigitsRev]
      have hlt : (m + 1) / 10 < m + 1 := Nat.div_lt_self (Nat.succ_pos m) (by decide)
      rw [List.reverse_cons, List.foldl_append, ih ((m + 1) / 10) hlt acc]
      simp only [List.foldl_cons, List.foldl_nil, List.length_cons]
      have hmod : 48 + (m + 1) % 10 - 48 = (m + 1) % 10 := by omega
      rw [hmod, pow_succ]
      have hdm := Nat.div_add_mod (m + 1) 10
      ring_nf
      omega

theorem digitsValue_decimalDigits (n : Nat) : digitsValue (decimalDigits n) = n := by
  unfold digitsValue decimalDigits
  split
  · next h => simp [h]
  · simpa using digitsValue_rev n 0

theorem decimalDigits_all_numeric (n : Nat) : (decimalDigits n).all is_numeric = true := by
  rw [List.all_eq_true]
  intro b hb
  have := mem_decimalDigits hb
  simp [is_numeric]
  omega

theorem parseU64_decimalDigits {n : Nat} (h : n < U64) :
    parseU64 (decimalDigits n) = some n := by
  unfold parseU64
  rw [if_neg (by simpa [List.isEmpty_iff] using decimalDigits_ne_nil n),
    if_pos (decimalDigits_all_numeric n), digitsValue_decimalDigits, if_pos h]

theorem toLowerStr_of_no_upper {l : List Nat} (h : ∀ b ∈ l, b < 65 ∨ 90 < b) :
    toLowerStr l = l := by
  unfold toLowerStr
  induction l with
  | nil => rfl
  | cons a t ih =>
    have ha := h a (List.mem_cons_self a t)
    simp only [List.map_cons]
    rw [ih fun b hb => h b (List.mem_cons_of_mem a hb)]
    have : toLowerByte a = a := by
      unfold toLowerByte
      rw [if_neg (by omega)]
    rw [this]

theorem toLowerStr_digits (n : Nat) : toLowerStr (decimalDigits n) = decimalDigits n :=
  toLowerStr_of_no_upper fun b hb => Or.inl (by have := mem_decimalDigits hb; omega)

theorem filter_is_numeric_digits (n : Nat) :
    (decimalDigits n).filter is_numeric = decimalDigits n := by
  rw [List.filter_eq_self]
  intro b hb
  have := mem_decimalDigits hb
  simp [is_numeric]
  omega

theorem hasSuffix_append_pair (l : List Nat) (x y a b : Nat) :
    hasSuffix (l ++ [x, y]) [a, b] = true ↔ (x = a ∧ y = b) := by
  unfold hasSuffix
  rw [List.reverse_append]
  rw [show ([a, b] : List Nat).length = 2 from rfl]
  rw [show (([x, y] : List Nat).reverse ++ l.reverse).take 2 = [y, x] by
    rw [show ([x, y] : List Nat).reverse = [y, x] from rfl]
    exact List.take_left' rfl]
  simp
  tauto

theorem generate_key_rng_irrel (ks : Nat) (r r' : StdRng) (n : Nat) :
    generate_key ks r n = generate_key ks r' n := rfl

theorem length_generate_key (ks : Nat) (r : StdRng) (n : Nat) :
    (generate_key ks r n).length = min ks (4 + max 16 (decimalDigits n).length) := by
  unfold generate_key
  rw [List.length_take]
  congr 1
  simp [List.length_append, List.length_replicate]
  omega

theorem generate_value_state (vs : Nat) :
    ∀ r : StdRng, (generate_value vs r).2 = ⟨r.seed, r.pos + vs⟩ := by
  induction vs with
  | zero => intro r; cases r; rfl
  | succ n ih =>
    intro r
    show (generate_value n r.next_u8.2).2 = _
    rw [ih]
    show StdRng.mk r.seed (r.pos + 1 + n) = StdRng.mk r.seed (r.pos + (n + 1))
    congr 1
    omega

theorem populateFrom_getElem (ks vs : Nat) :
    ∀ (fuel i i0 : Nat) (rng : StdRng), i < fuel →
      (populateFrom ks vs fuel i0 rng)[i]? =
        some (generate_key ks rng (i0 + i),
          (generate_value vs ⟨rng.seed, rng.pos + i * vs⟩).1) := by
  intro fuel
  induction fuel with
  | zero => intro i i0 rng h; omega
  | succ f ih =>
    intro i i0 rng hi
    cases i with
    | zero =>
      cases rng
      simp [populateFrom]
    | succ j =>
      simp only [populateFrom, List.getElem?_cons_succ]
      rw [ih j (i0 + 1) (generate_value vs rng).2 (by omega), generate_value_state]
      rw [generate_key_rng_irrel ks _ rng]
      have h1 : i0 + 1 + j = i0 + (j + 1) := by omega
      have h2 : rng.pos + vs + j * vs = rng.pos + (j + 1) * vs := by ring
      rw [h1, h2]

theorem floor_le_round (x : ℚ) : ⌊x⌋ ≤ round x := by
  rw [round_eq]
  exact Int.floor_le_floor (by linarith)

theorem total_keys_eval_lowered (c : WorkloadConfig) (N x y : Nat)
    (hlow : toLowerStr c.dataset_size = decimalDigits N ++ [x, y])
    (hx : 97 ≤ x) (hy : 97 ≤ y) (hN : N < U64)
    (h1 : 0 < c.key_size + c.value_size) (h2 : c.key_size + c.value_size < U64) :
    total_keys c =
      some ((N * (if x = 103 ∧ y = 98 then 1000000000
        else if x = 109 ∧ y = 98 then 1000000 else 1)) % U64 /
          (c.key_size + c.value_size)) := by
  have hfilter : (decimalDigits N ++ [x, y]).filter is_numeric = decimalDigits N := by
    rw [List.filter_append, filter_is_numeric_digits]
    have hxy : ([x, y] : List Nat).filter is_numeric = [] := by
      simp [is_numeric]
      omega
    rw [hxy, List.append_nil]
  have hd : (c.key_size + c.value_size) % U64 = c.key_size + c.value_size :=
    Nat.mod_eq_of_lt h2
  simp only [total_keys, hlow, hfilter, parseU64_decimalDigits hN, Option.getD_some, hd,
    if_neg (by omega : ¬ c.key_size + c.value_size = 0)]
  by_cases hgb : x = 103 ∧ y = 98
  · rw [if_pos ((hasSuffix_append_pair _ _ _ _ _).mpr hgb), if_pos hgb]
  · rw [if_neg (fun h => hgb ((hasSuffix_append_pair _ _ _ _ _).mp h)), if_neg hgb]
    by_cases hmb : x = 109 ∧ y = 98
    · rw [if_pos ((hasSuffix_append_pair _ _ _ _ _).mpr hmb), if_pos hmb]
    · rw [if_neg (fun h => hmb ((hasSuffix_append_pair _ _ _ _ _).mp h)), if_neg hmb]

theorem toLowerStr_digits_append (N : Nat) (l : List Nat) :
    toLowerStr (decimalDigits N ++ l) = decimalDigits N ++ toLowerStr l := by
  unfold toLowerStr
  rw [List.map_append]
  rw [show List.map toLowerByte (decimalDigits N) = decimalDigits N from toLowerStr_digits N]

/-! ## Claim theorems -/

/-- C1: key generation is independent of the generator state, hence
byte-identical across any two runs with the same `key_size` and key
index; the `i`-th population pair is fully determined by the fixed seed
42, the sizes and the index — the value bytes are the draws at position
`i * value_size` of the seed-42 stream; and the population phase and the
timed phase re-seed the generator with the same fixed seed 42. -/
theorem keygen_reproducible (ks vs count i : Nat) (r r' : StdRng) (hi : i < count) :
    generate_key ks r i = generate_key ks r' i ∧
    (populate_initial_data ks vs count)[i]? =
      some (generate_key ks r i, (generate_value vs ⟨42, i * vs⟩).1) ∧
    populate_phase_rng = timed_phase_rng := by
  refine ⟨generate_key_rng_irrel .., ?_, rfl⟩
  unfold populate_initial_data
  have h42 : StdRng.seed_from_u64 42 = ⟨42, 0⟩ := by
    unfold StdRng.seed_from_u64
    congr 1
  rw [h42, populateFrom_getElem ks vs count i 0 ⟨42, 0⟩ hi]
  have hk : generate_key ks (⟨42, 0⟩ : StdRng) (0 + i) = generate_key ks r i := by
    rw [Nat.zero_add]
    exact generate_key_rng_irrel ks _ r i
  rw [hk]
  simp

/-- Witness for C1 at `key_size = 8`, `value_size = 2`, `count = 3`,
index `i = 1`, two distinct generator states. -/
theorem keygen_reproducible_witness :
    generate_key 8 (StdRng.mk 42 0) 1 = generate_key 8 (StdRng.mk 7 9) 1 ∧
    (populate_initial_data 8 2 3)[1]? =
      some (generate_key 8 (StdRng.mk 42 0) 1, (generate_value 2 (StdRng.mk 42 (1 * 2))).1) ∧
    populate_phase_rng = timed_phase_rng := by
  have h := keygen_reproducible 8 2 3 1 (StdRng.mk 42 0) (StdRng.mk 7 9) (by decide)
  exact h

/-- C2: in each timed-loop iteration with draw `r < 100`, the operation
is a write iff `r < write_pct`, a scan iff `write_pct ≤ r <
write_pct + scan_pct`, and a read otherwise; the boundaries are
upper-exclusive and tested in the order write, scan, read (so a draw
equal to a boundary falls into the next bucket), and the workload-level
dispatch is the same chain with `scan_pct = 0`. -/
theorem op_mix_dispatch (wp sp r : Nat) (_hr : r < 100) :
    (benchmark_select_op wp sp r = .write ↔ r < wp) ∧
    (benchmark_select_op wp sp r = .scan ↔ wp ≤ r ∧ r < wp + sp) ∧
    (benchmark_select_op wp sp r = .read ↔ wp ≤ r ∧ wp + sp ≤ r) ∧
    workload_select_op wp r = benchmark_select_op wp 0 r := by
  unfold benchmark_select_op workload_select_op
  split_ifs with h1 h2 h3 <;> simp_all <;> omega

/-- Witness for C2: with the source's fixed ratios 70/10 a draw of 75
selects the scan arm, and the boundary draw 70 is not a write. -/
theorem op_mix_dispatch_witness :
    benchmark_select_op 70 10 75 = OpType.scan ∧
    benchmark_select_op 70 10 70 ≠ OpType.write := by
  constructor
  · exact (op_mix_dispatch 70 10 75 (by decide)).2.1.mpr (by decide)
  · intro h
    exact absurd ((op_mix_dispatch 70 10 70 (by decide)).1.mp h) (by decide)

/-- C6 (amended): the generated key has length
`min key_size (length of the formatted index)`, where the formatted
index `"key_{:016}"` is 4 bytes plus the zero-padded digit block of
width `max 16 (digit count)`; the key is exactly `key_size` bytes iff
`key_size` does not exceed the formatted length — for larger `key_size`
no padding happens. -/
theorem key_length_spec (ks n : Nat) (r : StdRng) :
    (generate_key ks r n).length = min ks (4 + max 16 (decimalDigits n).length) ∧
    (ks ≤ 4 + max 16 (decimalDigits n).length → (generate_key ks r n).length = ks) := by
  have h : (generate_key ks r n).length = min ks (4 + max 16 (decimalDigits n).length) := by
    unfold generate_key
    rw [List.length_take]
    congr 1
    simp [List.length_append, List.length_replicate]
    omega
  exact ⟨h, fun hle => by rw [h]; omega⟩

/-- Witness for C6 at the source defaults `key_size = 16`, index 0. -/
theorem key_length_spec_witness :
    (generate_key 16 (StdRng.mk 42 0) 0).length = 16 :=
  (key_length_spec 16 0 (StdRng.mk 42 0)).2 (by decide)

/-- Counterexample to C6 as stated: with `key_size = 32` the generated
key for index 0 is 20 bytes, not 32 — the code truncates but never pads. -/
theorem key_length_counterexample :
    (generate_key 32 (StdRng.mk 42 0) 0).length = 20 ∧
    (generate_key 32 (StdRng.mk 42 0) 0).length ≠ 32 := by
  decide

/-- C3: write amplification is `(bytes_written + compaction_bytes_written)
/ bytes_written` (exactly that quotient in `RocksDBEngine::metrics`;
rounded to two decimals in `Workload::calculate_write_amplification`),
is exactly `1.0` when `bytes_written == 0`, and is `≥ 1.0` for every
state with non-zero `bytes_written`. -/
theorem write_amplification_spec (st : EngineStatistics) :
    (st.bytes_written = 0 →
      calculate_write_amplification st = 1 ∧
      rocksdb_write_amp st.bytes_written st.compaction_bytes_written = 1) ∧
    (st.bytes_written ≠ 0 →
      rocksdb_write_amp st.bytes_written st.compaction_bytes_written =
        ((st.bytes_written : ℚ) + (st.compaction_bytes_written : ℚ)) /
          (st.bytes_written : ℚ) ∧
      1 ≤ rocksdb_write_amp st.bytes_written st.compaction_bytes_written ∧
      1 ≤ calculate_write_amplification st) := by
  obtain ⟨b, br, c, cr⟩ := st
  simp only [EngineStatistics.bytes_written, EngineStatistics.compaction_bytes_written]
  constructor
  · intro hb
    subst hb
    exact ⟨by simp [calculate_write_amplification], by simp [rocksdb_write_amp]⟩
  · intro hb
    have hb' : 0 < b := Nat.pos_of_ne_zero hb
    have hbq : (0 : ℚ) < (b : ℚ) := by exact_mod_cast hb'
    have hform : rocksdb_write_amp b c = ((b : ℚ) + (c : ℚ)) / (b : ℚ) := by
      rw [rocksdb_write_amp, if_pos hb']
      push_cast
      rfl
    have hge : 1 ≤ ((b : ℚ) + (c : ℚ)) / (b : ℚ) := by
      rw [one_le_div hbq]
      have hc : (0 : ℚ) ≤ (c : ℚ) := by positivity
      linarith
    refine ⟨hform, hform ▸ hge, ?_⟩
    rw [calculate_write_amplification, if_neg hb]
    have hq1 : 1 ≤ ((b + c : Nat) : ℚ) / (b : ℚ) := by
      push_cast
      exact hge
    have h100 : (100 : ℚ) ≤ ((b + c : Nat) : ℚ) / (b : ℚ) * 100 := by linarith
    have hrd : (100 : ℤ) ≤ round (((b + c : Nat) : ℚ) / (b : ℚ) * 100) := by
      refine le_trans (Int.le_floor.mpr ?_) (floor_le_round _)
      push_cast
      push_cast at h100
      linarith
    rw [one_le_div (by norm_num : (0 : ℚ) < 100)]
    exact_mod_cast hrd

/-- Witness for C3 at `bytes_written = 3`,
`compaction_bytes_written = 1`. -/
theorem write_amplification_spec_witness :
    1 ≤ calculate_write_amplification ⟨3, 0, 1, 0⟩ ∧
    rocksdb_write_amp 3 1 = (4 : ℚ) / 3 := by
  have h := (write_amplification_spec ⟨3, 0, 1, 0⟩).2 (by decide)
  refine ⟨h.2.2, ?_⟩
  rw [h.1]
  norm_num

/-- C7 (amended): space amplification is `disk_size / bytes_written`,
exactly `1.0` when `bytes_written == 0`, and `≥ 1.0` exactly when the
directory size is at least `bytes_written` — the code enforces no lower
bound, so `SAF < 1.0` is possible for non-zero `bytes_written`. -/
theorem space_amp_spec (d b : Nat) :
    (b = 0 → space_amp d b = 1) ∧
    (0 < b → space_amp d b = (d : ℚ) / (b : ℚ)) ∧
    (0 < b → (1 ≤ space_amp d b ↔ b ≤ d)) := by
  refine ⟨fun hb => by simp [space_amp, hb], fun hb => by rw [space_amp, if_pos hb], ?_⟩
  intro hb
  rw [space_amp, if_pos hb, one_le_div (by exact_mod_cast hb : (0 : ℚ) < (b : ℚ))]
  exact_mod_cast Iff.rfl

/-- Witness for C7 at `disk_size = 6`, `bytes_written = 3`. -/
theorem space_amp_spec_witness :
    space_amp 6 3 = (6 : ℚ) / 3 ∧ 1 ≤ space_amp 6 3 := by
  have h := space_amp_spec 6 3
  exact ⟨h.2.1 (by decide), (h.2.2 (by decide)).mpr (by decide)⟩

/-- Counterexample to C7 as stated: with `fs_size` reporting 0 (e.g. on
error, via `unwrap_or(0)`) and one byte written, the computed space
amplification is `0 < 1.0`, refuting `SAF ≥ 1.0` for non-zero
`bytes_written`. -/
theorem space_amp_below_one_counterexample :
    space_amp 0 1 = 0 ∧ ¬ 1 ≤ space_amp 0 1 := by
  norm_num [space_amp]

/-- C8 (amended): a latency sample at or below the histogram's highest
trackable value of `10^9` microseconds is recorded — the call returns
normally and the sample count increases by one (this includes
below-range samples such as 0 µs, which land in the bottom bucket
rather than being dropped); but a sample above `10^9` µs is not clamped:
`record` returns an `Err` and the `.unwrap()` in
`record_write_latency`/`record_read_latency` panics. -/
theorem record_latency_spec (h : Histogram) (micros : Nat)
    (hh : h.highest_trackable = 1000000000) :
    (micros ≤ 1000000000 →
      ∃ h', record_write_latency h micros = some h' ∧
        h'.total_count = h.total_count + 1) ∧
    (1000000000 < micros → record_write_latency h micros = none) := by
  constructor
  · intro hm
    rw [record_write_latency, Histogram.record, if_pos (by omega)]
    exact ⟨_, rfl, rfl⟩
  · intro hm
    rw [record_write_latency, Histogram.record, if_neg (by omega)]

/-- Witness for C8: a below-range 0 µs sample on the configured
`[1, 10^9]` histogram is recorded and counted. -/
theorem record_latency_spec_witness :
    ∃ h', record_write_latency latency_histogram 0 = some h' ∧
      h'.total_count = latency_histogram.total_count + 1 :=
  (record_latency_spec latency_histogram 0 rfl).1 (by decide)

/-- Counterexample to C8 as stated: a sample of `10^9 + 1` microseconds
is not clamped and inserted — the `record` call fails (the unwrapped
`Err`, i.e. a panic), and the count does not increase. -/
theorem record_latency_panic_counterexample :
    record_write_latency latency_histogram 1000000001 = none := by
  rfl

/-- C9 (amended): for each metric the winner follows the metric-specific
comparator (throughput: higher wins; latency percentiles, write/space
amplification and memory: lower wins, with index 1 taken on ties), and
the reported improvement ratio is always winner-value over loser-value
for throughput and loser-value over winner-value for the lower-wins
metrics, i.e. the larger value over the smaller in both cases. -/
theorem compare_engines_spec (t0 t1 v0 v1 : ℚ) :
    (t1 < t0 → throughput_winner t0 t1 = 0 ∧ throughput_ratio t0 t1 = t0 / t1) ∧
    (t0 ≤ t1 → throughput_winner t0 t1 = 1 ∧ throughput_ratio t0 t1 = t1 / t0) ∧
    (v0 < v1 → lower_wins_winner v0 v1 = 0 ∧ lower_wins_ratio v0 v1 = v1 / v0) ∧
    (v1 ≤ v0 → lower_wins_winner v0 v1 = 1 ∧ lower_wins_ratio v0 v1 = v0 / v1) := by
  refine ⟨fun h => ?_, fun h => ?_, fun h => ?_, fun h => ?_⟩
  · have hw : throughput_winner t0 t1 = 0 := by rw [throughput_winner, if_pos h]
    exact ⟨hw, by rw [throughput_ratio, hw]; simp [resultAt]⟩
  · have hw : throughput_winner t0 t1 = 1 := by
      rw [throughput_winner, if_neg (not_lt.mpr h)]
    exact ⟨hw, by rw [throughput_ratio, hw]; simp [resultAt]⟩
  · have hw : lower_wins_winner v0 v1 = 0 := by rw [lower_wins_winner, if_pos h]
    exact ⟨hw, by rw [lower_wins_ratio, hw]; simp [resultAt]⟩
  · have hw : lower_wins_winner v0 v1 = 1 := by
      rw [lower_wins_winner, if_neg (not_lt.mpr h)]
    exact ⟨hw, by rw [lower_wins_ratio, hw]; simp [resultAt]⟩

/-- Witness for C9 at the spec's comparative scenario, throughputs 1000
and 1500 ops/sec: the second result wins and the printed ratio is
`1500 / 1000 = 1.5`. -/
theorem compare_engines_spec_witness :
    throughput_winner 1000 1500 = 1 ∧
    throughput_ratio 1000 1500 = (1500 : ℚ) / 1000 :=
  (compare_engines_spec 1000 1500 0 0).2.1 (by norm_num)

/-- Counterexample to C9 as stated: for throughputs 1000 and 1500 the
code prints the ratio `1500 / 1000 = 1.5` (matching the claim's example)
which is not `loser_value / winner_value = 1000 / 1500`, refuting the
claim's general formula. -/
theorem compare_ratio_counterexample :
    throughput_winner 1000 1500 = 1 ∧
    throughput_ratio 1000 1500 = (3 : ℚ) / 2 ∧
    (1000 : ℚ) / 1500 ≠ (3 : ℚ) / 2 := by
  refine ⟨?_, ?_, by norm_num⟩
  · rw [throughput_winner, if_neg (by norm_num)]
  · rw [throughput_ratio, throughput_winner, if_neg (by norm_num)]
    norm_num [resultAt]

/-- C4 (amended): for every `N` whose product with the unit multiplier
fits in a `u64` and every `key_size`, `value_size` with
`0 < key_size + value_size < 2^64`, the dataset strings `"{N}gb"` /
`"{N}GB"` give `total_keys = ⌊N * 10^9 / (key_size + value_size)⌋` and
`"{N}mb"` / `"{N}MB"` give `⌊N * 10^6 / (key_size + value_size)⌋`;
`"1MB"` with `key_size = 16`, `value_size = 1024` yields exactly 961;
any other suffix is treated as multiplier 1 and unparsable numeric
content defaults to 1.  (For `N * unit ≥ 2^64` the wrapping `u64`
multiplication makes the result differ from the mathematical formula —
see the counterexample.) -/
theorem total_keys_parse_spec :
    (∀ N ks vs w r dur, N < U64 → N * 1000000000 < U64 →
      0 < ks + vs → ks + vs < U64 →
      total_keys ⟨w, r, ks, vs, decimalDigits N ++ [103, 98], dur⟩ =
        some (N * 1000000000 / (ks + vs)) ∧
      total_keys ⟨w, r, ks, vs, decimalDigits N ++ [71, 66], dur⟩ =
        some (N * 1000000000 / (ks + vs))) ∧
    (∀ N ks vs w r dur, N < U64 → N * 1000000 < U64 →
      0 < ks + vs → ks + vs < U64 →
      total_keys ⟨w, r, ks, vs, decimalDigits N ++ [109, 98], dur⟩ =
        some (N * 1000000 / (ks + vs)) ∧
      total_keys ⟨w, r, ks, vs, decimalDigits N ++ [77, 66], dur⟩ =
        some (N * 1000000 / (ks + vs))) ∧
    total_keys ⟨80, 20, 16, 1024, [49, 77, 66], 1⟩ = some 961 ∧
    total_keys ⟨80, 20, 1, 1, [53, 107, 98], 1⟩ = some 2 ∧
    total_keys ⟨80, 20, 1, 1, [103, 98], 1⟩ = some 500000000 := by
  have hgb : ∀ (c : WorkloadConfig) (N : Nat),
      toLowerStr c.dataset_size = decimalDigits N ++ [103, 98] → N < U64 →
      N * 1000000000 < U64 → 0 < c.key_size + c.value_size →
      c.key_size + c.value_size < U64 →
      total_keys c = some (N * 1000000000 / (c.key_size + c.value_size)) := by
    intro c N hlow hN hNu h1 h2
    rw [total_keys_eval_lowered c N 103 98 hlow (by norm_num) (by norm_num) hN h1 h2,
      if_pos ⟨rfl, rfl⟩, Nat.mod_eq_of_lt hNu]
  have hmb : ∀ (c : WorkloadConfig) (N : Nat),
      toLowerStr c.dataset_size = decimalDigits N ++ [109, 98] → N < U64 →
      N * 1000000 < U64 → 0 < c.key_size + c.value_size →
      c.key_size + c.value_size < U64 →
      total_keys c = some (N * 1000000 / (c.key_size + c.value_size)) := by
    intro c N hlow hN hNu h1 h2
    rw [total_keys_eval_lowered c N 109 98 hlow (by norm_num) (by norm_num) hN h1 h2,
      if_neg (by norm_num), if_pos ⟨rfl, rfl⟩, Nat.mod_eq_of_lt hNu]
  refine ⟨fun N ks vs w r dur hN hNu h1 h2 => ⟨?_, ?_⟩,
    fun N ks vs w r dur hN hNu h1 h2 => ⟨?_, ?_⟩, by decide, by decide, by decide⟩
  · exact hgb _ N (by rw [toLowerStr_digits_append]; rfl) hN hNu h1 h2
  · exact hgb _ N (by rw [toLowerStr_digits_append]; rfl) hN hNu h1 h2
  · exact hmb _ N (by rw [toLowerStr_digits_append]; rfl) hN hNu h1 h2
  · exact hmb _ N (by rw [toLowerStr_digits_append]; rfl) hN hNu h1 h2

/-- Witness for C4 at `N = 1` gb, `key_size = 16`, `value_size = 1024`. -/
theorem total_keys_parse_spec_witness :
    total_keys ⟨80, 20, 16, 1024, decimalDigits 1 ++ [103, 98], 1⟩ =
      some (1 * 1000000000 / (16 + 1024)) :=
  (total_keys_parse_spec.1 1 16 1024 80 20 1 (by decide) (by decide)
    (by decide) (by decide)).1

/-- Counterexample to C4 as stated: for `"18446744074gb"` (a parsable
`u64` value) with `key_size = 16`, `value_size = 1024`, the wrapping
`u64` multiplication `N * 10^9 mod 2^64` makes `total_keys` return
279277, not `⌊18446744074 * 10^9 / 1040⌋ = 17737253917307692`. -/
theorem total_keys_overflow_counterexample :
    total_keys ⟨80, 20, 16, 1024,
      [49, 56, 52, 52, 54, 55, 52, 52, 48, 55, 52, 103, 98], 1⟩ = some 279277 ∧
    279277 ≠ 18446744074 * 1000000000 / (16 + 1024) := by
  exact ⟨by decide, by decide⟩

/-- C5 (amended): loading a workload config fails with a configuration
error exactly when the `u32` (wrapping) sum of the operation percentages
differs from 100 — for `writes + reads < 2^32` that is exactly
`writes + reads ≠ 100` — and the check happens at load time: on failure
`run_benchmark` constructs zero engines.  (At the `u32` wrapping corner
the mathematical reading fails — see the counterexample.) -/
theorem config_validation_spec (c : WorkloadConfig) (engines : List EngineKind)
    (hs : c.writes + c.reads < U32) :
    ((∃ e, from_file (some c) = Except.error e) ↔ c.writes + c.reads ≠ 100) ∧
    (c.writes + c.reads ≠ 100 → (run_benchmark (some c) engines).2 = 0) ∧
    (c.writes + c.reads = 100 → from_file (some c) = Except.ok c ∧
      (run_benchmark (some c) engines).2 = engines.length) := by
  have hmod : (c.writes + c.reads) % U32 = c.writes + c.reads := Nat.mod_eq_of_lt hs
  by_cases h : c.writes + c.reads = 100
  · have hff : from_file (some c) = Except.ok c := by
      simp only [from_file]
      rw [if_neg (by rw [hmod]; exact not_not_intro h)]
    refine ⟨?_, fun hn => absurd h hn, fun _ => ⟨hff, by simp [run_benchmark, hff]⟩⟩
    constructor
    · rintro ⟨e, he⟩
      rw [hff] at he
      cases he
    · intro hn
      exact absurd h hn
  · have hff : from_file (some c) = Except.error [87, 114, 105, 116, 101, 115] := by
      simp only [from_file]
      rw [if_pos (by rw [hmod]; exact h)]
    exact ⟨⟨fun _ => h, fun _ => ⟨_, hff⟩⟩,
      fun _ => by simp [run_benchmark, hff], fun hc => absurd hc h⟩

/-- Witness for C5: a valid 70/30 config loads successfully and one
engine is constructed for a one-engine run. -/
theorem config_validation_spec_witness :
    from_file (some ⟨70, 30, 16, 1024, [], 60⟩) =
      Except.ok ⟨70, 30, 16, 1024, [], 60⟩ ∧
    (run_benchmark (some ⟨70, 30, 16, 1024, [], 60⟩) [EngineKind.rocksdb]).2 = 1 := by
  have h := config_validation_spec ⟨70, 30, 16, 1024, [], 60⟩ [EngineKind.rocksdb]
    (by decide)
  exact ⟨(h.2.2 (by decide)).1, (h.2.2 (by decide)).2⟩

/-- Counterexample to C5 as stated: `writes = 4294967246`,
`reads = 150` do not sum to 100, yet the wrapping `u32` addition yields
exactly 100 and the config is accepted without a configuration error. -/
theorem config_validation_wrap_counterexample :
    from_file (some ⟨4294967246, 150, 16, 1024, [], 60⟩) =
      Except.ok ⟨4294967246, 150, 16, 1024, [], 60⟩ ∧
    4294967246 + 150 ≠ 100 := by
  exact ⟨rfl, by decide⟩

/-- C10 (amended): `from_file` accepts configs with
`key_size == 0 && value_size == 0` (it validates only the percentage
sum), and `total_keys` panics (divides by zero) exactly when the
wrapped `u64` sum `(key_size + value_size) mod 2^64` is zero; it is
total (returns `some`) for every config whose wrapped sum is non-zero.
The mathematical precondition `key_size + value_size > 0` alone is not
sufficient at the `usize` wrapping corner — see the counterexample. -/
theorem total_keys_panic_freedom (c : WorkloadConfig) :
    ((c.writes + c.reads) % U32 = 100 → from_file (some c) = Except.ok c) ∧
    (total_keys c = none ↔ (c.key_size + c.value_size) % U64 = 0) ∧
    ((c.key_size + c.value_size) % U64 ≠ 0 → ∃ k, total_keys c = some k) := by
  refine ⟨fun h => by simp [from_file, h], ?_, ?_⟩
  · by_cases hd : (c.key_size + c.value_size) % U64 = 0
    · simp [total_keys, hd]
    · simp [total_keys, hd]
  · intro h
    simp only [total_keys]
    rw [if_neg h]
    exact ⟨_, rfl⟩

/-- Witness for C10: a 50/50 config with zero key and value sizes is
accepted by validation, and `total_keys` returns a value for a config
with `key_size = 16`, `value_size = 1024`. -/
theorem total_keys_panic_freedom_witness :
    from_file (some ⟨50, 50, 0, 0, [], 1⟩) = Except.ok ⟨50, 50, 0, 0, [], 1⟩ ∧
    ∃ k, total_keys ⟨80, 20, 16, 1024, [49, 77, 66], 1⟩ = some k :=
  ⟨(total_keys_panic_freedom ⟨50, 50, 0, 0, [], 1⟩).1 (by decide),
    (total_keys_panic_freedom ⟨80, 20, 16, 1024, [49, 77, 66], 1⟩).2.2 (by decide)⟩

/-- Counterexample to C10 as stated: `key_size = 2^64 - 1`,
`value_size = 1` satisfies `key_size + value_size > 0`, yet the wrapped
`usize` sum is 0 and `total_keys` divides by zero (panics). -/
theorem total_keys_wrap_panic_counterexample :
    0 < 18446744073709551615 + 1 ∧
    total_keys ⟨50, 50, 18446744073709551615, 1, [49, 77, 66], 1⟩ = none := by
  exact ⟨by decide, by decide⟩

end DbBench
